import Mathlib

set_option maxHeartbeats 1000000

/-!
Shallow embedding of the text adventure game in `credit.py`.

Python machine-width-free integers become `Int` (health values can go
negative) and `Nat` (indices, counters).  Randomness (`random.randint`,
`random.choice`) is modelled nondeterministically: every random draw is an
explicit parameter of the handler, constrained to the support of the
distribution in the step relation.  Printing is ignored; only state
mutation is embedded.
-/

/-- Player state: the `Entity` fields (`name`, `max_health`, `health`,
`attack`) from `Entity.__init__` together with the extra fields set in
`Player.__init__`. -/
structure Player where
  name : String
  max_health : Int
  health : Int
  attack : Int
  inventory : List String
  current_location : Nat
  features_collected : Nat
  deriving DecidableEq

/-- Bug state: the `Entity` fields plus the `level` field from
`Bug.__init__`. -/
structure Bug where
  name : String
  max_health : Int
  health : Int
  attack : Int
  level : Nat
  deriving DecidableEq

/-- A room of `Game.MAP`: name, direction-to-index exits, optional
content string. -/
structure Room where
  name : String
  exits : List (String × Nat)
  content : Option String
  deriving DecidableEq

/-- The mutable game state held by the `Game` object. -/
structure Game where
  player : Player
  is_running : Bool
  current_bug : Option Bug
  map_state : List Room
  deriving DecidableEq

/-- `Entity.is_alive` for the player: `health > 0`. -/
def Player.is_alive (p : Player) : Bool := decide (0 < p.health)

/-- `Entity.is_alive` for a bug: `health > 0`. -/
def Bug.is_alive (b : Bug) : Bool := decide (0 < b.health)

/-- `Entity.take_damage` for the player: `health -= damage` (no clamping
of the stored value; only the printed value is clamped). -/
def Player.take_damage (p : Player) (damage : Int) : Player :=
  { p with health := p.health - damage }

/-- `Entity.take_damage` for a bug. -/
def Bug.take_damage (b : Bug) (damage : Int) : Bug :=
  { b with health := b.health - damage }

/-- `Player.add_feature`: append to inventory, bump the counter, +5
permanent max health, heal +10 capped at the new max. -/
def Player.add_feature (p : Player) (feature_name : String) : Player :=
  let p1 := { p with
    inventory := p.inventory ++ [feature_name],
    features_collected := p.features_collected + 1,
    max_health := p.max_health + 5 }
  { p1 with health := min p1.max_health (p1.health + 10) }

/-- The fixed bug name pool of `Bug.__init__`. -/
def BUG_NAMES : List String :=
  ["Runtime Error", "Segmentation Fault", "Off-by-One Loop", "Null Pointer"]

/-- `Bug.__init__`: the random `random.choice` over the name pool is
modelled by the index `idx` into `BUG_NAMES`. -/
def mkBug (idx : Nat) (level : Nat) : Bug :=
  { name := BUG_NAMES.getD idx "",
    max_health := 20 + (level : Int) * 10,
    health := 20 + (level : Int) * 10,
    attack := 5 + (level : Int) * 5,
    level := level }

/-- The static class attribute `Game.MAP`. -/
def MAP : List Room :=
  [ { name := "Main Repository", exits := [("N", 1), ("E", 2)], content := none },
    { name := "Frontend Component", exits := [("S", 0), ("E", 3)], content := some "Bug" },
    { name := "Backend Service", exits := [("W", 0), ("N", 3)], content := some "Feature: Authentication" },
    { name := "Database Schema", exits := [("S", 2), ("W", 1)], content := some "Bug" },
    { name := "CI/CD Pipeline", exits := [], content := some "Feature: Automated Testing" } ]

/-- The static class attribute `Game.FEATURE_POOL`. -/
def FEATURE_POOL : List String :=
  ["User Profiles", "API Caching", "Real-time Notifications",
   "Data Migration Script", "Linter Configuration"]

/-- Python substring test `needle in hay`, on the underlying character
lists. -/
def subOccurs (needle : List Char) : List Char → Bool
  | [] => needle.isEmpty
  | c :: rest => needle.isPrefixOf (c :: rest) || subOccurs needle rest

/-- Python `needle in hay` for strings. -/
def strContains (hay needle : String) : Bool := subOccurs needle.data hay.data

/-- Python `s.startswith(pre)`: prefix test on the character lists. -/
def pyStartsWith (s pre : String) : Bool := pre.data.isPrefixOf s.data

/-- Python `s.upper()`, built on the character list (ASCII uppercasing,
which is all the direction comparison can observe). -/
def pyUpper (s : String) : String := ⟨s.data.map Char.toUpper⟩

/-- Set the `content` field of the `i`-th room (the in-place dict update
`room['content'] = ...`). -/
def setContent : List Room → Nat → Option String → List Room
  | [], _, _ => []
  | r :: rs, 0, c => { r with content := c } :: rs
  | r :: rs, n + 1, c => r :: setContent rs n c

/-- Python `list.index`: index of the first element equal to the target
(the target is always present where the game uses it). -/
def roomIndex : List Room → Room → Nat
  | [], _ => 0
  | r :: rs, t => if r = t then 0 else 1 + roomIndex rs t

/-- Default room used for the (unreachable) out-of-range map access. -/
def dfltRoom : Room := { name := "", exits := [], content := none }

/-- `self.map_state[self.player.current_location]`. -/
def getRoom (g : Game) : Room := g.map_state.getD g.player.current_location dfltRoom

/-- Truth of `self.current_bug and self.current_bug.is_alive()`. -/
def bugAlive (g : Game) : Bool :=
  match g.current_bug with
  | some b => b.is_alive
  | none => false

/-- The bug construction shared by `Game._look` and `Game._start_combat`:
`bug_level = 1 + features_collected // 2 + current_location // 2`. -/
def spawnBug (idx : Nat) (g : Game) : Game :=
  let bug_level := 1 + g.player.features_collected / 2 + g.player.current_location / 2
  { g with current_bug := some (mkBug idx bug_level) }

/-- `Game._look`.  Only the bug-spawning branch mutates state; all other
branches just print. -/
def Game.look (idx : Nat) (g : Game) : Game :=
  let location := getRoom g
  match location.content with
  | none => g
  | some content =>
    if strContains content "Bug" then
      if bugAlive g = false ∨ g.player.current_location ≠ roomIndex g.map_state location then
        if bugAlive g = false then spawnBug idx g else g
      else g
    else g

/-- `Game._move`: blocked while a live bug is active (the room-index
check mirrors the source), otherwise follow the exit named by the
uppercased direction and re-look. -/
def Game.move (direction : String) (idx : Nat) (g : Game) : Game :=
  let dir := pyUpper direction
  let location := getRoom g
  if bugAlive g = true ∧ roomIndex g.map_state location = g.player.current_location then g
  else
    match location.exits.lookup dir with
    | some new_index =>
        Game.look idx { g with player := { g.player with current_location := new_index } }
    | none => g

/-- `Game._start_combat`. -/
def Game.start_combat (idx : Nat) (g : Game) : Game :=
  let location := getRoom g
  match location.content with
  | none => g
  | some content =>
    if strContains content "Bug" = false then g
    else if bugAlive g = false ∨ roomIndex g.map_state location ≠ g.player.current_location then
      spawnBug idx g
    else g

/-- The combat round at the bottom of `Game._attack`, entered with the
live bug `bug` (`g1.current_bug = some bug`): the player hits first; on a
kill the room content clears, the bug reference clears, the player heals
+5 capped, and the room is looked at again; otherwise the bug retaliates
and a dead player clears the running flag. -/
def Game.attackRound (idx : Nat) (proll broll : Int) (g1 : Game) (bug : Bug) : Game :=
  let bug1 := bug.take_damage proll
  if bug1.is_alive = false then
    let m := setContent g1.map_state g1.player.current_location none
    let p := { g1.player with
      health := min g1.player.max_health (g1.player.health + 5) }
    Game.look idx { g1 with map_state := m, current_bug := none, player := p }
  else
    let g2 := { g1 with current_bug := some bug1 }
    let p2 := g2.player.take_damage broll
    if p2.is_alive = false then { g2 with player := p2, is_running := false }
    else { g2 with player := p2 }

/-- `Game._attack`: one round of combat.  `proll` is the player damage
roll, `broll` the retaliation roll, `idx` the random bug-name index used
if a bug has to be spawned first. -/
def Game.attack (idx : Nat) (proll broll : Int) (g : Game) : Game :=
  let g1 := if bugAlive g = false then Game.start_combat idx g else g
  match g1.current_bug with
  | none => g1
  | some bug =>
    if bug.is_alive = false then g1
    else Game.attackRound idx proll broll g1 bug

/-- `Game._collect`. -/
def Game.collect (idx : Nat) (g : Game) : Game :=
  let location := getRoom g
  match location.content with
  | none => g
  | some content =>
    if pyStartsWith content "Feature:" then
      let feature_name := (content.splitOn ": ").getD 1 ""
      let p2 := g.player.add_feature feature_name
      let g1 := { g with
        player := p2,
        map_state := setContent g.map_state g.player.current_location none }
      if 5 ≤ p2.features_collected then { g1 with is_running := false }
      else Game.look idx g1
    else g

/-- The `quit` branch of `Game.run`. -/
def Game.quit (g : Game) : Game := { g with is_running := false }

/-- `Game.__init__`, parametrised by the current value of the class-level
`FEATURE_POOL` list: the two `FEATURE_POOL.pop(0)` calls are modelled by
returning the remaining pool alongside the new state.  `none` models the
`IndexError` raised by `pop` on a too-short pool. -/
def gameInit : List String → Option (Game × List String)
  | f1 :: f2 :: rest =>
    let m1 := setContent MAP 2 (some ("Feature: " ++ f1))
    let m2 := setContent m1 4 (some ("Feature: " ++ f2))
    some ({ player :=
              { name := "The Developer", max_health := 100, health := 100, attack := 15,
                inventory := [], current_location := 0, features_collected := 0 },
            is_running := true, current_bug := none, map_state := m2 }, rest)
  | _ => none

/-- A five-room map with the fixed names and exits of `Game.MAP` and the
given contents. -/
def mkMap (c0 c1 c2 c3 c4 : Option String) : List Room :=
  [ { name := "Main Repository", exits := [("N", 1), ("E", 2)], content := c0 },
    { name := "Frontend Component", exits := [("S", 0), ("E", 3)], content := c1 },
    { name := "Backend Service", exits := [("W", 0), ("N", 3)], content := c2 },
    { name := "Database Schema", exits := [("S", 2), ("W", 1)], content := c3 },
    { name := "CI/CD Pipeline", exits := [], content := c4 } ]

/-- The state produced by running `Game.__init__` on the pristine
`FEATURE_POOL` (the state of the one `Game()` the program constructs). -/
def initGame : Game :=
  { player :=
      { name := "The Developer", max_health := 100, health := 100, attack := 15,
        inventory := [], current_location := 0, features_collected := 0 },
    is_running := true, current_bug := none,
    map_state := mkMap none (some "Bug") (some "Feature: User Profiles")
      (some "Bug") (some "Feature: API Caching") }

/-- Number of rooms currently holding a feature. -/
def featureCount (m : List Room) : Nat :=
  m.countP fun r =>
    match r.content with
    | some c => pyStartsWith c "Feature:"
    | none => false

/-- Constraint on the player damage roll
`random.randint(player.attack - 5, player.attack + 5)`. -/
def prollOk (g : Game) (r : Int) : Prop :=
  g.player.attack - 5 ≤ r ∧ r ≤ g.player.attack + 5

/-- The state after the lazy `_start_combat` call at the top of
`_attack`. -/
def postSpawn (idx : Nat) (g : Game) : Game :=
  if bugAlive g = false then Game.start_combat idx g else g

/-- Constraint on the retaliation roll
`random.randint(bug.attack - 3, bug.attack + 3)`, stated against the bug
that is live when the roll happens. -/
def brollOk (idx : Nat) (g : Game) (r : Int) : Prop :=
  ∀ b, (postSpawn idx g).current_bug = some b → b.attack - 3 ≤ r ∧ r ≤ b.attack + 3

/-- One iteration of the command loop `Game.run`, as a relation: random
draws are existentially fixed parameters constrained to the support of
the corresponding distribution.  `skip` covers `help`, `status`, blank
input and unknown commands, none of which mutate state. -/
inductive Step : Game → Game → Prop
  | look (idx : Nat) (h : idx < 4) (g : Game) : Step g (Game.look idx g)
  | move (d : String) (idx : Nat) (h : idx < 4) (g : Game) : Step g (Game.move d idx g)
  | attack (idx : Nat) (h : idx < 4) (proll broll : Int) (g : Game)
      (hp : prollOk g proll) (hb : brollOk idx g broll) :
      Step g (Game.attack idx proll broll g)
  | collect (idx : Nat) (h : idx < 4) (g : Game) : Step g (Game.collect idx g)
  | quit (g : Game) : Step g (Game.quit g)
  | skip (g : Game) : Step g g

/-- States reachable by the program: the constructed initial state plus
any number of loop iterations (the loop only runs while `is_running`). -/
inductive Reachable : Game → Prop
  | init : Reachable initGame
  | step {g g' : Game} : Reachable g → g.is_running = true → Step g g' → Reachable g'

/-- Content of room `i` in the working map. -/
def contentAt (g : Game) (i : Nat) : Option String :=
  (g.map_state.getD i dfltRoom).content

/-- Upper bound on the damage the active bug can still deal: every player
roll removes at least 10 bug health, so a bug with `h` health retaliates
at most `(h - 1) / 10` more times, each time for at most `d` damage. -/
def retal (d h : Int) : Int := (((h - 1).toNat / 10 : Nat) : Int) * d

/-- Upper bound on the damage the encounter of room `i` can still deal:
`full` bounds a not-yet-spawned bug, `d` bounds one retaliation of the
bug that spawns there. -/
def potAt (g : Game) (i : Nat) (full d : Int) : Int :=
  if contentAt g i = some "Bug" then
    match g.current_bug with
    | some b =>
      if 0 < b.health ∧ g.player.current_location = i then retal d b.health else full
    | none => full
  else 0

/-- Total damage the player can still take in the rest of the game: the
room 1 bug is always level 1 (30 health, attack 10, per-round bound 13,
total bound 26) and the room 3 bug always level 2 (40 health, attack 15,
per-round bound 18, total bound 54). -/
def dmgPot (g : Game) : Int := potAt g 1 26 13 + potAt g 3 54 18

/-- The inductive invariant of reachable states. -/
structure GameInv (g : Game) : Prop where
  hmap : ∃ c1 c2 c3,
    g.map_state = mkMap none c1 c2 c3 (some "Feature: API Caching") ∧
    (c1 = some "Bug" ∨ c1 = none) ∧
    (c2 = some "Feature: User Profiles" ∨ c2 = none) ∧
    (c3 = some "Bug" ∨ c3 = none)
  hatk : g.player.attack = 15
  hloc : g.player.current_location ≤ 3
  hfc : g.player.features_collected + featureCount g.map_state = 2
  hlen : g.player.features_collected = g.player.inventory.length
  hhm : g.player.health ≤ g.player.max_health
  hbug : ∀ b, g.current_bug = some b → 0 < b.health →
    contentAt g g.player.current_location = some "Bug" ∧
    ((g.player.current_location = 1 ∧ b.attack = 10 ∧ b.health ≤ 30) ∨
     (g.player.current_location = 3 ∧ b.attack = 15 ∧ b.health ≤ 40))
  hpot : 1 + dmgPot g ≤ g.player.health

theorem bug_is_alive_true {b : Bug} : b.is_alive = true ↔ 0 < b.health := by
  simp only [Bug.is_alive, decide_eq_true_eq]

theorem bug_is_alive_false {b : Bug} : b.is_alive = false ↔ b.health ≤ 0 := by
  simp only [Bug.is_alive, decide_eq_false_iff_not, Int.not_lt]

theorem player_is_alive_false {p : Player} : p.is_alive = false ↔ p.health ≤ 0 := by
  simp only [Player.is_alive, decide_eq_false_iff_not, Int.not_lt]

theorem bugAlive_false_iff {g : Game} :
    bugAlive g = false ↔ ∀ b, g.current_bug = some b → b.health ≤ 0 := by
  cases h : g.current_bug with
  | none => simp [bugAlive, h]
  | some b => simp [bugAlive, h, bug_is_alive_false]

theorem bugAlive_true_iff {g : Game} :
    bugAlive g = true ↔ ∃ b, g.current_bug = some b ∧ 0 < b.health := by
  cases h : g.current_bug with
  | none => simp [bugAlive, h]
  | some b => simp [bugAlive, h, bug_is_alive_true]

theorem setContent_length (m : List Room) (i : Nat) (c : Option String) :
    (setContent m i c).length = m.length := by
  induction m generalizing i with
  | nil => rfl
  | cons r rs ih => cases i <;> simp [setContent, ih]

theorem getD_setContent_self (m : List Room) (i : Nat) (c : Option String)
    (h : i < m.length) :
    (setContent m i c).getD i dfltRoom = { m.getD i dfltRoom with content := c } := by
  induction m generalizing i with
  | nil => simp at h
  | cons r rs ih =>
    cases i with
    | zero => simp [setContent]
    | succ n => simpa [setContent] using ih n (by simpa using h)

theorem look_of_content_none (idx : Nat) (g : Game) (h : (getRoom g).content = none) :
    Game.look idx g = g := by
  simp only [Game.look, h]

@[simp] theorem strContains_bug_self : strContains "Bug" "Bug" = true := rfl

@[simp] theorem strContains_up_bug : strContains "Feature: User Profiles" "Bug" = false := rfl

@[simp] theorem strContains_ac_bug : strContains "Feature: API Caching" "Bug" = false := rfl

@[simp] theorem startsWith_bug : pyStartsWith "Bug" "Feature:" = false := rfl

@[simp] theorem startsWith_up : pyStartsWith "Feature: User Profiles" "Feature:" = true := rfl

@[simp] theorem startsWith_ac : pyStartsWith "Feature: API Caching" "Feature:" = true := rfl

@[simp] theorem mkMap_getD_zero (c0 c1 c2 c3 c4 : Option String) :
    (mkMap c0 c1 c2 c3 c4).getD 0 dfltRoom =
      { name := "Main Repository", exits := [("N", 1), ("E", 2)], content := c0 } := rfl

@[simp] theorem mkMap_getD_one (c0 c1 c2 c3 c4 : Option String) :
    (mkMap c0 c1 c2 c3 c4).getD 1 dfltRoom =
      { name := "Frontend Component", exits := [("S", 0), ("E", 3)], content := c1 } := rfl

@[simp] theorem mkMap_getD_two (c0 c1 c2 c3 c4 : Option String) :
    (mkMap c0 c1 c2 c3 c4).getD 2 dfltRoom =
      { name := "Backend Service", exits := [("W", 0), ("N", 3)], content := c2 } := rfl

@[simp] theorem mkMap_getD_three (c0 c1 c2 c3 c4 : Option String) :
    (mkMap c0 c1 c2 c3 c4).getD 3 dfltRoom =
      { name := "Database Schema", exits := [("S", 2), ("W", 1)], content := c3 } := rfl

@[simp] theorem mkMap_getD_four (c0 c1 c2 c3 c4 : Option String) :
    (mkMap c0 c1 c2 c3 c4).getD 4 dfltRoom =
      { name := "CI/CD Pipeline", exits := [], content := c4 } := rfl

@[simp] theorem setContent_mkMap_one (c0 c1 c2 c3 c4 x : Option String) :
    setContent (mkMap c0 c1 c2 c3 c4) 1 x = mkMap c0 x c2 c3 c4 := rfl

@[simp] theorem setContent_mkMap_two (c0 c1 c2 c3 c4 x : Option String) :
    setContent (mkMap c0 c1 c2 c3 c4) 2 x = mkMap c0 c1 x c3 c4 := rfl

@[simp] theorem setContent_mkMap_three (c0 c1 c2 c3 c4 x : Option String) :
    setContent (mkMap c0 c1 c2 c3 c4) 3 x = mkMap c0 c1 c2 x c4 := rfl

@[simp] theorem roomIndex_room1 (c2 c3 : Option String) :
    roomIndex (mkMap none (some "Bug") c2 c3 (some "Feature: API Caching"))
      { name := "Frontend Component", exits := [("S", 0), ("E", 3)], content := some "Bug" } = 1 := rfl

@[simp] theorem roomIndex_room3 (c1 c2 : Option String) :
    roomIndex (mkMap none c1 c2 (some "Bug") (some "Feature: API Caching"))
      { name := "Database Schema", exits := [("S", 2), ("W", 1)], content := some "Bug" } = 3 := rfl
theorem GameInv.fc_le_one {g : Game} (hg : GameInv g) : g.player.features_collected ≤ 1 := by
  obtain ⟨c1, c2, c3, hm, hc1, hc2, hc3⟩ := hg.hmap
  have hfc := hg.hfc
  rw [hm] at hfc
  rcases hc1 with rfl | rfl <;> rcases hc2 with rfl | rfl <;> rcases hc3 with rfl | rfl <;>
    simp [featureCount, mkMap, List.countP_cons, List.countP_nil] at hfc <;> omega

theorem look_of_alive (idx : Nat) {g : Game} (hg : GameInv g) (ha : bugAlive g = true) :
    Game.look idx g = g := by
  obtain ⟨c1, c2, c3, hm, hc1, hc2, hc3⟩ := hg.hmap
  obtain ⟨b, hb, hbpos⟩ := bugAlive_true_iff.mp ha
  obtain ⟨hcontent, hcase⟩ := hg.hbug b hb hbpos
  rcases hcase with ⟨h1, -, -⟩ | ⟨h3, -, -⟩
  · have hc1' : c1 = some "Bug" := by
      rw [contentAt, hm, h1] at hcontent
      simpa using hcontent
    subst hc1'
    have hroom : getRoom g =
        { name := "Frontend Component", exits := [("S", 0), ("E", 3)], content := some "Bug" } := by
      rw [getRoom, hm, h1]; rfl
    simp [Game.look, hroom, hm, ha, h1]
  · have hc3' : c3 = some "Bug" := by
      rw [contentAt, hm, h3] at hcontent
      simpa using hcontent
    subst hc3'
    have hroom : getRoom g =
        { name := "Database Schema", exits := [("S", 2), ("W", 1)], content := some "Bug" } := by
      rw [getRoom, hm, h3]; rfl
    simp [Game.look, hroom, hm, ha, h3]

theorem contentAt_spawn (idx : Nat) (g : Game) (i : Nat) :
    contentAt (spawnBug idx g) i = contentAt g i := rfl

theorem potAt_of_dead {g : Game} {i : Nat} {full d : Int} (hdead : bugAlive g = false) :
    potAt g i full d = if contentAt g i = some "Bug" then full else 0 := by
  rw [bugAlive_false_iff] at hdead
  cases h : g.current_bug with
  | none => simp [potAt, h]
  | some b =>
    have hb := hdead b h
    have hfalse : ¬ (0 < b.health ∧ g.player.current_location = i) := by
      rintro ⟨hpos, -⟩; omega
    simp [potAt, h, hfalse]

theorem potAt_of_alive_at {g : Game} {i : Nat} {full d : Int} {b : Bug}
    (hb : g.current_bug = some b) (hpos : 0 < b.health)
    (hl : g.player.current_location = i) (hc : contentAt g i = some "Bug") :
    potAt g i full d = retal d b.health := by
  simp [potAt, hb, hpos, hl, hc]

theorem potAt_of_alive_off {g : Game} {i : Nat} {full d : Int} {b : Bug}
    (hb : g.current_bug = some b) (hl : g.player.current_location ≠ i) :
    potAt g i full d = if contentAt g i = some "Bug" then full else 0 := by
  simp [potAt, hb, hl]

theorem retal_nonneg {d h : Int} (hd : 0 ≤ d) : 0 ≤ retal d h := by
  exact mul_nonneg (by positivity) hd

theorem retal13_le {h : Int} (hh : h ≤ 30) : retal 13 h ≤ 26 := by
  simp only [retal]; omega

theorem retal18_le {h : Int} (hh : h ≤ 40) : retal 18 h ≤ 54 := by
  simp only [retal]; omega

theorem retal_step13 {h r p : Int} (hp : 10 ≤ p) (hpos : 0 < h - p) (hr : r ≤ 13) :
    retal 13 (h - p) + r ≤ retal 13 h := by
  simp only [retal]; omega

theorem retal_step18 {h r p : Int} (hp : 10 ≤ p) (hpos : 0 < h - p) (hr : r ≤ 18) :
    retal 18 (h - p) + r ≤ retal 18 h := by
  simp only [retal]; omega

@[simp] theorem mkBug_one_health (idx : Nat) : (mkBug idx 1).health = 30 := rfl

@[simp] theorem mkBug_one_attack (idx : Nat) : (mkBug idx 1).attack = 10 := rfl

@[simp] theorem mkBug_two_health (idx : Nat) : (mkBug idx 2).health = 40 := rfl

@[simp] theorem mkBug_two_attack (idx : Nat) : (mkBug idx 2).attack = 15 := rfl

theorem spawn_pres (idx : Nat) {g : Game} (hg : GameInv g) (hdead : bugAlive g = false)
    (hcb : contentAt g g.player.current_location = some "Bug") :
    GameInv (spawnBug idx g) ∧
      ((g.player.current_location = 1 ∧ (spawnBug idx g).current_bug = some (mkBug idx 1)) ∨
       (g.player.current_location = 3 ∧ (spawnBug idx g).current_bug = some (mkBug idx 2))) := by
  obtain ⟨c1, c2, c3, hm, hc1, hc2, hc3⟩ := hg.hmap
  have hfc1 : g.player.features_collected ≤ 1 := hg.fc_le_one
  have hl4 : g.player.current_location = 0 ∨ g.player.current_location = 1 ∨
      g.player.current_location = 2 ∨ g.player.current_location = 3 := by
    have := hg.hloc; omega
  rcases hl4 with h0 | h1 | h2 | h3
  · rw [contentAt, hm, h0, mkMap_getD_zero] at hcb
    simp at hcb
  · -- spawn in room 1: level 1 bug
    have hc1' : c1 = some "Bug" := by
      rw [contentAt, hm, h1, mkMap_getD_one] at hcb
      simpa using hcb
    subst hc1'
    have hlev : 1 + g.player.features_collected / 2 + g.player.current_location / 2 = 1 := by
      rw [h1]; omega
    have hsb : (spawnBug idx g).current_bug = some (mkBug idx 1) := by
      simp only [spawnBug]
      rw [hlev]
    have hc1at : contentAt g 1 = some "Bug" := by
      rw [contentAt, hm, mkMap_getD_one]
    have e1post : potAt (spawnBug idx g) 1 26 13 = 26 := by
      rw [potAt_of_alive_at hsb (by simp) (by simpa [spawnBug] using h1)
        (by rw [contentAt_spawn]; exact hc1at), mkBug_one_health]
      rfl
    have e1pre : potAt g 1 26 13 = 26 := by
      rw [potAt_of_dead hdead, if_pos hc1at]
    have e3post : potAt (spawnBug idx g) 3 54 18 = potAt g 3 54 18 := by
      rw [potAt_of_alive_off hsb (by simp [spawnBug, h1]), potAt_of_dead hdead, contentAt_spawn]
    refine ⟨⟨⟨some "Bug", c2, c3, by simpa [spawnBug] using hm, Or.inl rfl, hc2, hc3⟩,
      hg.hatk, hg.hloc, hg.hfc, hg.hlen, hg.hhm, ?_, ?_⟩, Or.inl ⟨h1, hsb⟩⟩
    · intro b hb hpos
      rw [hsb] at hb
      obtain rfl : mkBug idx 1 = b := by injection hb
      refine ⟨?_, Or.inl ⟨by simpa [spawnBug] using h1, by simp, by simp⟩⟩
      rw [contentAt_spawn]
      show contentAt g g.player.current_location = some "Bug"
      rw [h1]; exact hc1at
    · show 1 + dmgPot (spawnBug idx g) ≤ (spawnBug idx g).player.health
      have hpot := hg.hpot
      rw [dmgPot] at hpot ⊢
      rw [e1post, e3post]
      rw [e1pre] at hpot
      exact hpot
  · rcases hc2 with rfl | rfl <;>
      rw [contentAt, hm, h2, mkMap_getD_two] at hcb <;> exact absurd hcb (by decide)
  · -- spawn in room 3: level 2 bug
    have hc3' : c3 = some "Bug" := by
      rw [contentAt, hm, h3, mkMap_getD_three] at hcb
      simpa using hcb
    subst hc3'
    have hlev : 1 + g.player.features_collected / 2 + g.player.current_location / 2 = 2 := by
      rw [h3]; omega
    have hsb : (spawnBug idx g).current_bug = some (mkBug idx 2) := by
      simp only [spawnBug]
      rw [hlev]
    have hc3at : contentAt g 3 = some "Bug" := by
      rw [contentAt, hm, mkMap_getD_three]
    have e3post : potAt (spawnBug idx g) 3 54 18 = 54 := by
      rw [potAt_of_alive_at hsb (by simp) (by simpa [spawnBug] using h3)
        (by rw [contentAt_spawn]; exact hc3at), mkBug_two_health]
      rfl
    have e3pre : potAt g 3 54 18 = 54 := by
      rw [potAt_of_dead hdead, if_pos hc3at]
    have e1post : potAt (spawnBug idx g) 1 26 13 = potAt g 1 26 13 := by
      rw [potAt_of_alive_off hsb (by simp [spawnBug, h3]), potAt_of_dead hdead, contentAt_spawn]
    refine ⟨⟨⟨c1, c2, some "Bug", by simpa [spawnBug] using hm, hc1, hc2, Or.inl rfl⟩,
      hg.hatk, hg.hloc, hg.hfc, hg.hlen, hg.hhm, ?_, ?_⟩, Or.inr ⟨h3, hsb⟩⟩
    · intro b hb hpos
      rw [hsb] at hb
      obtain rfl : mkBug idx 2 = b := by injection hb
      refine ⟨?_, Or.inr ⟨by simpa [spawnBug] using h3, by simp, by simp⟩⟩
      rw [contentAt_spawn]
      show contentAt g g.player.current_location = some "Bug"
      rw [h3]; exact hc3at
    · show 1 + dmgPot (spawnBug idx g) ≤ (spawnBug idx g).player.health
      have hpot := hg.hpot
      rw [dmgPot] at hpot ⊢
      rw [e3post, e1post]
      rw [e3pre] at hpot
      exact hpot

@[simp] theorem bug_take_damage_health (b : Bug) (d : Int) :
    (b.take_damage d).health = b.health - d := rfl

@[simp] theorem bug_take_damage_attack (b : Bug) (d : Int) :
    (b.take_damage d).attack = b.attack := rfl

@[simp] theorem player_take_damage_health (p : Player) (d : Int) :
    (p.take_damage d).health = p.health - d := rfl

@[simp] theorem spawnBug_map (idx : Nat) (g : Game) :
    (spawnBug idx g).map_state = g.map_state := rfl

@[simp] theorem spawnBug_player (idx : Nat) (g : Game) :
    (spawnBug idx g).player = g.player := rfl

theorem start_combat_of_alive (idx : Nat) {g : Game} (hg : GameInv g)
    (ha : bugAlive g = true) : Game.start_combat idx g = g := by
  obtain ⟨c1, c2, c3, hm, hc1, hc2, hc3⟩ := hg.hmap
  obtain ⟨b, hb, hbpos⟩ := bugAlive_true_iff.mp ha
  obtain ⟨hcontent, hcase⟩ := hg.hbug b hb hbpos
  rcases hcase with ⟨h1, -, -⟩ | ⟨h3, -, -⟩
  · have hc1' : c1 = some "Bug" := by
      rw [contentAt, hm, h1, mkMap_getD_one] at hcontent
      simpa using hcontent
    subst hc1'
    have hroom : getRoom g =
        { name := "Frontend Component", exits := [("S", 0), ("E", 3)], content := some "Bug" } := by
      rw [getRoom, hm, h1]; rfl
    simp [Game.start_combat, hroom, hm, ha, h1]
  · have hc3' : c3 = some "Bug" := by
      rw [contentAt, hm, h3, mkMap_getD_three] at hcontent
      simpa using hcontent
    subst hc3'
    have hroom : getRoom g =
        { name := "Database Schema", exits := [("S", 2), ("W", 1)], content := some "Bug" } := by
      rw [getRoom, hm, h3]; rfl
    simp [Game.start_combat, hroom, hm, ha, h3]

theorem content_cases {g : Game} (hg : GameInv g) :
    contentAt g g.player.current_location = none ∨
    contentAt g g.player.current_location = some "Bug" ∨
    contentAt g g.player.current_location = some "Feature: User Profiles" := by
  obtain ⟨c1, c2, c3, hm, hc1, hc2, hc3⟩ := hg.hmap
  have hl4 : g.player.current_location = 0 ∨ g.player.current_location = 1 ∨
      g.player.current_location = 2 ∨ g.player.current_location = 3 := by
    have := hg.hloc; omega
  rcases hl4 with h | h | h | h <;> rw [contentAt, hm, h]
  · rw [mkMap_getD_zero]; tauto
  · rw [mkMap_getD_one]; rcases hc1 with rfl | rfl <;> tauto
  · rw [mkMap_getD_two]; rcases hc2 with rfl | rfl <;> tauto
  · rw [mkMap_getD_three]; rcases hc3 with rfl | rfl <;> tauto

theorem look_of_not_bug (idx : Nat) {g : Game} {c : String}
    (h : (getRoom g).content = some c) (hnb : strContains c "Bug" = false) :
    Game.look idx g = g := by
  simp [Game.look, h, hnb]

theorem look_spawn (idx : Nat) {g : Game} {c : String}
    (h : (getRoom g).content = some c) (hcb : strContains c "Bug" = true)
    (hdead : bugAlive g = false) :
    Game.look idx g = spawnBug idx g := by
  simp [Game.look, h, hcb, hdead]

theorem look_pres (idx : Nat) {g : Game} (hg : GameInv g) : GameInv (Game.look idx g) := by
  by_cases ha : bugAlive g = true
  · rw [look_of_alive idx hg ha]; exact hg
  · have hdead : bugAlive g = false := by simpa using ha
    rcases content_cases hg with hc | hc | hc
    · rw [look_of_content_none idx g hc]; exact hg
    · rw [look_spawn idx hc rfl hdead]
      exact (spawn_pres idx hg hdead hc).1
    · rw [look_of_not_bug idx hc (by decide)]
      exact hg

theorem start_combat_spawn (idx : Nat) {g : Game} {c : String}
    (h : (getRoom g).content = some c) (hcb : strContains c "Bug" = true)
    (hdead : bugAlive g = false) :
    Game.start_combat idx g = spawnBug idx g := by
  simp [Game.start_combat, h, hcb, hdead]

theorem start_combat_not_bug (idx : Nat) {g : Game} {c : String}
    (h : (getRoom g).content = some c) (hnb : strContains c "Bug" = false) :
    Game.start_combat idx g = g := by
  simp [Game.start_combat, h, hnb]

theorem start_combat_none (idx : Nat) {g : Game} (h : (getRoom g).content = none) :
    Game.start_combat idx g = g := by
  simp [Game.start_combat, h]

theorem start_combat_pres (idx : Nat) {g : Game} (hg : GameInv g) :
    GameInv (Game.start_combat idx g) := by
  by_cases ha : bugAlive g = true
  · rw [start_combat_of_alive idx hg ha]; exact hg
  · have hdead : bugAlive g = false := by simpa using ha
    rcases content_cases hg with hc | hc | hc
    · rw [start_combat_none idx hc]; exact hg
    · rw [start_combat_spawn idx hc rfl hdead]
      exact (spawn_pres idx hg hdead hc).1
    · rw [start_combat_not_bug idx hc (by decide)]
      exact hg

theorem round_pres (idx : Nat) (proll broll : Int) {g1 : Game} {b : Bug} (hg : GameInv g1)
    (hcb : g1.current_bug = some b) (hpos : 0 < b.health) (hp : 10 ≤ proll)
    (hbr : b.attack - 3 ≤ broll ∧ broll ≤ b.attack + 3) :
    GameInv (Game.attackRound idx proll broll g1 b) := by
  obtain ⟨c1, c2, c3, hm, hc1, hc2, hc3⟩ := hg.hmap
  obtain ⟨hcontent, hcase⟩ := hg.hbug b hcb hpos
  simp only [Game.attackRound]
  rcases hcase with ⟨h1, hatk, hhb⟩ | ⟨h3, hatk, hhb⟩
  · -- the live bug sits in room 1 (attack 10, health at most 30)
    have hc1' : c1 = some "Bug" := by
      rw [contentAt, hm, h1, mkMap_getD_one] at hcontent
      simpa using hcontent
    subst hc1'
    have hc1at : contentAt g1 1 = some "Bug" := by
      rw [contentAt, hm, mkMap_getD_one]
    have hpre1 : potAt g1 1 26 13 = retal 13 b.health :=
      potAt_of_alive_at hcb hpos h1 hc1at
    have hc3at : contentAt g1 3 = c3 := by
      rw [contentAt, hm, mkMap_getD_three]
    have hpre3 : potAt g1 3 54 18 = if c3 = some "Bug" then 54 else 0 := by
      rw [potAt_of_alive_off hcb (by rw [h1]; omega), hc3at]
    have hpot := hg.hpot
    rw [dmgPot, hpre1, hpre3] at hpot
    have hr0 : (0 : Int) ≤ retal 13 b.health := retal_nonneg (by norm_num)
    have hhm := hg.hhm
    by_cases hv : (b.take_damage proll).is_alive = false
    · rw [if_pos hv]
      apply look_pres
      have hmv : setContent g1.map_state g1.player.current_location none =
          mkMap none none c2 c3 (some "Feature: API Caching") := by
        rw [h1, hm, setContent_mkMap_one]
      refine ⟨⟨none, c2, c3, hmv, Or.inr rfl, hc2, hc3⟩, hg.hatk, hg.hloc, ?_, hg.hlen,
        min_le_left _ _, ?_, ?_⟩
      · show g1.player.features_collected +
          featureCount (setContent g1.map_state g1.player.current_location none) = 2
        rw [hmv]
        have hfcold := hg.hfc
        rw [hm] at hfcold
        rcases hc2 with rfl | rfl <;> rcases hc3 with rfl | rfl <;>
          simp [featureCount, mkMap, List.countP_cons, List.countP_nil] at hfcold ⊢ <;>
          omega
      · intro b' hb'
        exact absurd hb' (by simp)
      · show 1 + (potAt _ 1 26 13 + potAt _ 3 54 18) ≤
          min g1.player.max_health (g1.player.health + 5)
        have hdv : bugAlive { g1 with
            map_state := setContent g1.map_state g1.player.current_location none,
            current_bug := none,
            player := { g1.player with
              health := min g1.player.max_health (g1.player.health + 5) } } = false := rfl
        rw [potAt_of_dead hdv, potAt_of_dead hdv]
        have e1 : contentAt { g1 with
            map_state := setContent g1.map_state g1.player.current_location none,
            current_bug := none,
            player := { g1.player with
              health := min g1.player.max_health (g1.player.health + 5) } } 1 = none := by
          show ((setContent g1.map_state g1.player.current_location none).getD
            1 dfltRoom).content = none
          rw [hmv, mkMap_getD_one]
        have e3 : contentAt { g1 with
            map_state := setContent g1.map_state g1.player.current_location none,
            current_bug := none,
            player := { g1.player with
              health := min g1.player.max_health (g1.player.health + 5) } } 3 = c3 := by
          show ((setContent g1.map_state g1.player.current_location none).getD
            3 dfltRoom).content = c3
          rw [hmv, mkMap_getD_three]
        rw [e1, e3]
        rcases hc3 with rfl | rfl <;> simp at hpot ⊢ <;> omega
    · rw [if_neg hv]
      have halive : 0 < b.health - proll := by
        have h' : (b.take_damage proll).is_alive = true := by
          cases hok : (b.take_damage proll).is_alive
          · exact absurd hok hv
          · rfl
        rw [bug_is_alive_true, bug_take_damage_health] at h'
        exact h'
      have hstep : retal 13 (b.health - proll) + broll ≤ retal 13 b.health :=
        retal_step13 hp halive (by omega)
      have main : ∀ r : Bool, GameInv (Game.mk (g1.player.take_damage broll) r
          (some (b.take_damage proll)) g1.map_state) := by
        intro r
        refine ⟨⟨some "Bug", c2, c3, hm, Or.inl rfl, hc2, hc3⟩, hg.hatk, hg.hloc,
          hg.hfc, hg.hlen, ?_, ?_, ?_⟩
        · show g1.player.health - broll ≤ g1.player.max_health
          omega
        · intro b' hb' hpos'
          obtain rfl : b.take_damage proll = b' := by
            simpa using hb'
          refine ⟨hcontent, Or.inl ⟨h1, by simpa using hatk, ?_⟩⟩
          rw [bug_take_damage_health]
          omega
        · have ha1 : potAt (Game.mk (g1.player.take_damage broll) r
              (some (b.take_damage proll)) g1.map_state) 1 26 13 =
              retal 13 (b.health - proll) := by
            rw [potAt_of_alive_at (g := Game.mk (g1.player.take_damage broll) r
                (some (b.take_damage proll)) g1.map_state) (b := b.take_damage proll) rfl
              (by rw [bug_take_damage_health]; exact halive) h1 hc1at,
              bug_take_damage_health]
          have ha3 : potAt (Game.mk (g1.player.take_damage broll) r
              (some (b.take_damage proll)) g1.map_state) 3 54 18 =
              if c3 = some "Bug" then 54 else 0 := by
            rw [potAt_of_alive_off (g := Game.mk (g1.player.take_damage broll) r
                (some (b.take_damage proll)) g1.map_state) (b := b.take_damage proll) rfl
              (by show g1.player.current_location ≠ 3; rw [h1]; omega)]
            show (if contentAt g1 3 = some "Bug" then (54 : Int) else 0) = _
            rw [hc3at]
          show 1 + dmgPot _ ≤ g1.player.health - broll
          rw [dmgPot, ha1, ha3]
          rcases hc3 with rfl | rfl <;> simp at hpot ⊢ <;> omega
      split
      · exact main false
      · exact main g1.is_running
  · -- the live bug sits in room 3 (attack 15, health at most 40)
    have hc3' : c3 = some "Bug" := by
      rw [contentAt, hm, h3, mkMap_getD_three] at hcontent
      simpa using hcontent
    subst hc3'
    have hc3at : contentAt g1 3 = some "Bug" := by
      rw [contentAt, hm, mkMap_getD_three]
    have hpre3 : potAt g1 3 54 18 = retal 18 b.health :=
      potAt_of_alive_at hcb hpos h3 hc3at
    have hc1at : contentAt g1 1 = c1 := by
      rw [contentAt, hm, mkMap_getD_one]
    have hpre1 : potAt g1 1 26 13 = if c1 = some "Bug" then 26 else 0 := by
      rw [potAt_of_alive_off hcb (by rw [h3]; omega), hc1at]
    have hpot := hg.hpot
    rw [dmgPot, hpre1, hpre3] at hpot
    have hr0 : (0 : Int) ≤ retal 18 b.health := retal_nonneg (by norm_num)
    have hhm := hg.hhm
    by_cases hv : (b.take_damage proll).is_alive = false
    · rw [if_pos hv]
      apply look_pres
      have hmv : setContent g1.map_state g1.player.current_location none =
          mkMap none c1 c2 none (some "Feature: API Caching") := by
        rw [h3, hm, setContent_mkMap_three]
      refine ⟨⟨c1, c2, none, hmv, hc1, hc2, Or.inr rfl⟩, hg.hatk, hg.hloc, ?_, hg.hlen,
        min_le_left _ _, ?_, ?_⟩
      · show g1.player.features_collected +
          featureCount (setContent g1.map_state g1.player.current_location none) = 2
        rw [hmv]
        have hfcold := hg.hfc
        rw [hm] at hfcold
        rcases hc2 with rfl | rfl <;> rcases hc1 with rfl | rfl <;>
          simp [featureCount, mkMap, List.countP_cons, List.countP_nil] at hfcold ⊢ <;>
          omega
      · intro b' hb'
        exact absurd hb' (by simp)
      · show 1 + (potAt _ 1 26 13 + potAt _ 3 54 18) ≤
          min g1.player.max_health (g1.player.health + 5)
        have hdv : bugAlive { g1 with
            map_state := setContent g1.map_state g1.player.current_location none,
            current_bug := none,
            player := { g1.player with
              health := min g1.player.max_health (g1.player.health + 5) } } = false := rfl
        rw [potAt_of_dead hdv, potAt_of_dead hdv]
        have e3 : contentAt { g1 with
            map_state := setContent g1.map_state g1.player.current_location none,
            current_bug := none,
            player := { g1.player with
              health := min g1.player.max_health (g1.player.health + 5) } } 3 = none := by
          show ((setContent g1.map_state g1.player.current_location none).getD
            3 dfltRoom).content = none
          rw [hmv, mkMap_getD_three]
        have e1 : contentAt { g1 with
            map_state := setContent g1.map_state g1.player.current_location none,
            current_bug := none,
            player := { g1.player with
              health := min g1.player.max_health (g1.player.health + 5) } } 1 = c1 := by
          show ((setContent g1.map_state g1.player.current_location none).getD
            1 dfltRoom).content = c1
          rw [hmv, mkMap_getD_one]
        rw [e1, e3]
        rcases hc1 with rfl | rfl <;> simp at hpot ⊢ <;> omega
    · rw [if_neg hv]
      have halive : 0 < b.health - proll := by
        have h' : (b.take_damage proll).is_alive = true := by
          cases hok : (b.take_damage proll).is_alive
          · exact absurd hok hv
          · rfl
        rw [bug_is_alive_true, bug_take_damage_health] at h'
        exact h'
      have hstep : retal 18 (b.health - proll) + broll ≤ retal 18 b.health :=
        retal_step18 hp halive (by omega)
      have main : ∀ r : Bool, GameInv (Game.mk (g1.player.take_damage broll) r
          (some (b.take_damage proll)) g1.map_state) := by
        intro r
        refine ⟨⟨c1, c2, some "Bug", hm, hc1, hc2, Or.inl rfl⟩, hg.hatk, hg.hloc,
          hg.hfc, hg.hlen, ?_, ?_, ?_⟩
        · show g1.player.health - broll ≤ g1.player.max_health
          omega
        · intro b' hb' hpos'
          obtain rfl : b.take_damage proll = b' := by
            simpa using hb'
          refine ⟨hcontent, Or.inr ⟨h3, by simpa using hatk, ?_⟩⟩
          rw [bug_take_damage_health]
          omega
        · have ha3 : potAt (Game.mk (g1.player.take_damage broll) r
              (some (b.take_damage proll)) g1.map_state) 3 54 18 =
              retal 18 (b.health - proll) := by
            rw [potAt_of_alive_at (g := Game.mk (g1.player.take_damage broll) r
                (some (b.take_damage proll)) g1.map_state) (b := b.take_damage proll) rfl
              (by rw [bug_take_damage_health]; exact halive) h3 hc3at,
              bug_take_damage_health]
          have ha1 : potAt (Game.mk (g1.player.take_damage broll) r
              (some (b.take_damage proll)) g1.map_state) 1 26 13 =
              if c1 = some "Bug" then 26 else 0 := by
            rw [potAt_of_alive_off (g := Game.mk (g1.player.take_damage broll) r
                (some (b.take_damage proll)) g1.map_state) (b := b.take_damage proll) rfl
              (by show g1.player.current_location ≠ 1; rw [h3]; omega)]
            show (if contentAt g1 1 = some "Bug" then (26 : Int) else 0) = _
            rw [hc1at]
          show 1 + dmgPot _ ≤ g1.player.health - broll
          rw [dmgPot, ha1, ha3]
          rcases hc1 with rfl | rfl <;> simp at hpot ⊢ <;> omega
      split
      · exact main false
      · exact main g1.is_running

theorem postSpawn_of_alive (idx : Nat) {g : Game} (ha : bugAlive g = true) :
    postSpawn idx g = g := by
  rw [postSpawn, if_neg]
  simp [ha]

theorem postSpawn_of_dead (idx : Nat) {g : Game} (hdead : bugAlive g = false) :
    postSpawn idx g = Game.start_combat idx g := by
  rw [postSpawn, if_pos hdead]

theorem attack_pres (idx : Nat) (proll broll : Int) {g : Game} (hg : GameInv g)
    (hp : prollOk g proll) (hb : brollOk idx g broll) :
    GameInv (Game.attack idx proll broll g) := by
  have hp10 : 10 ≤ proll := by
    have h := hp.1
    rw [hg.hatk] at h
    omega
  by_cases ha : bugAlive g = true
  · obtain ⟨b, hcb, hpos⟩ := bugAlive_true_iff.mp ha
    have hbr := hb b (by rw [postSpawn_of_alive idx ha]; exact hcb)
    simp only [Game.attack]
    rw [if_neg (show ¬bugAlive g = false by simp [ha]), hcb]
    show GameInv (if b.is_alive = false then g else Game.attackRound idx proll broll g b)
    rw [if_neg (by rw [bug_is_alive_true.mpr hpos]; simp)]
    exact round_pres idx proll broll hg hcb hpos hp10 hbr
  · have hdead : bugAlive g = false := by simpa using ha
    simp only [Game.attack]
    rw [if_pos hdead]
    rcases content_cases hg with hc | hc | hc
    · rw [start_combat_none idx hc]
      cases hcb : g.current_bug with
      | none => exact hg
      | some b =>
        have hbdead : b.is_alive = false := by
          rw [bug_is_alive_false]
          exact bugAlive_false_iff.mp hdead b hcb
        show GameInv (if b.is_alive = false then g else Game.attackRound idx proll broll g b)
        rw [if_pos hbdead]
        exact hg
    · -- a bug spawns lazily and the round is fought against it
      have hsc : Game.start_combat idx g = spawnBug idx g := start_combat_spawn idx hc rfl hdead
      rw [hsc]
      obtain ⟨hginv, hchar⟩ := spawn_pres idx hg hdead hc
      have hps : postSpawn idx g = spawnBug idx g := by
        rw [postSpawn_of_dead idx hdead, hsc]
      rcases hchar with ⟨h1, hsb⟩ | ⟨h3, hsb⟩
      · have hbr := hb (mkBug idx 1) (by rw [hps]; exact hsb)
        rw [hsb]
        show GameInv (if (mkBug idx 1).is_alive = false then spawnBug idx g
          else Game.attackRound idx proll broll (spawnBug idx g) (mkBug idx 1))
        rw [if_neg (by rw [bug_is_alive_true.mpr (by simp)]; simp)]
        exact round_pres idx proll broll hginv hsb (by simp) hp10 hbr
      · have hbr := hb (mkBug idx 2) (by rw [hps]; exact hsb)
        rw [hsb]
        show GameInv (if (mkBug idx 2).is_alive = false then spawnBug idx g
          else Game.attackRound idx proll broll (spawnBug idx g) (mkBug idx 2))
        rw [if_neg (by rw [bug_is_alive_true.mpr (by simp)]; simp)]
        exact round_pres idx proll broll hginv hsb (by simp) hp10 hbr
    · rw [start_combat_not_bug idx hc (by decide)]
      cases hcb : g.current_bug with
      | none => exact hg
      | some b =>
        have hbdead : b.is_alive = false := by
          rw [bug_is_alive_false]
          exact bugAlive_false_iff.mp hdead b hcb
        show GameInv (if b.is_alive = false then g else Game.attackRound idx proll broll g b)
        rw [if_pos hbdead]
        exact hg

theorem lookup_mem_snd {d : String} {l : List (String × Nat)} {j : Nat}
    (h : l.lookup d = some j) : j ∈ l.map Prod.snd := by
  induction l with
  | nil => simp [List.lookup] at h
  | cons p ps ih =>
    obtain ⟨k, v⟩ := p
    rw [List.lookup] at h
    cases hd : (d == k) with
    | true =>
      rw [hd] at h
      simp only [Option.some.injEq] at h
      simp [h]
    | false =>
      rw [hd] at h
      simp [ih h]

theorem exits_target_le {g : Game} (hg : GameInv g) {d : String} {j : Nat}
    (h : (getRoom g).exits.lookup d = some j) : j ≤ 3 := by
  obtain ⟨c1, c2, c3, hm, hc1, hc2, hc3⟩ := hg.hmap
  have hl4 : g.player.current_location = 0 ∨ g.player.current_location = 1 ∨
      g.player.current_location = 2 ∨ g.player.current_location = 3 := by
    have := hg.hloc; omega
  have hmem := lookup_mem_snd h
  rcases hl4 with h0 | h0 | h0 | h0 <;>
    rw [getRoom, hm, h0] at hmem <;>
    simp [mkMap] at hmem <;> omega

theorem setLoc_pres {g : Game} (hg : GameInv g) (hdead : bugAlive g = false)
    (j : Nat) (hj : j ≤ 3) :
    GameInv { g with player := { g.player with current_location := j } } := by
  obtain ⟨c1, c2, c3, hm, hc1, hc2, hc3⟩ := hg.hmap
  refine ⟨⟨c1, c2, c3, hm, hc1, hc2, hc3⟩, hg.hatk, hj, hg.hfc, hg.hlen, hg.hhm, ?_, ?_⟩
  · intro b hb hpos
    have := bugAlive_false_iff.mp hdead b hb
    omega
  · have hdM : bugAlive { g with player := { g.player with current_location := j } } =
        false := hdead
    show 1 + dmgPot _ ≤ g.player.health
    rw [dmgPot, potAt_of_dead hdM, potAt_of_dead hdM]
    have hpotg := hg.hpot
    rw [dmgPot, potAt_of_dead hdead, potAt_of_dead hdead] at hpotg
    rw [show contentAt { g with player := { g.player with current_location := j } } 1 =
        contentAt g 1 from rfl,
      show contentAt { g with player := { g.player with current_location := j } } 3 =
        contentAt g 3 from rfl]
    exact hpotg

theorem move_of_alive (d : String) (idx : Nat) {g : Game} (hg : GameInv g)
    (ha : bugAlive g = true) : Game.move d idx g = g := by
  obtain ⟨c1, c2, c3, hm, hc1, hc2, hc3⟩ := hg.hmap
  obtain ⟨b, hb, hbpos⟩ := bugAlive_true_iff.mp ha
  obtain ⟨hcontent, hcase⟩ := hg.hbug b hb hbpos
  rcases hcase with ⟨h1, -, -⟩ | ⟨h3, -, -⟩
  · have hc1' : c1 = some "Bug" := by
      rw [contentAt, hm, h1, mkMap_getD_one] at hcontent
      simpa using hcontent
    subst hc1'
    have hroom : getRoom g =
        { name := "Frontend Component", exits := [("S", 0), ("E", 3)], content := some "Bug" } := by
      rw [getRoom, hm, h1]; rfl
    simp [Game.move, hroom, hm, ha, h1]
  · have hc3' : c3 = some "Bug" := by
      rw [contentAt, hm, h3, mkMap_getD_three] at hcontent
      simpa using hcontent
    subst hc3'
    have hroom : getRoom g =
        { name := "Database Schema", exits := [("S", 2), ("W", 1)], content := some "Bug" } := by
      rw [getRoom, hm, h3]; rfl
    simp [Game.move, hroom, hm, ha, h3]

theorem move_pres (d : String) (idx : Nat) {g : Game} (hg : GameInv g) :
    GameInv (Game.move d idx g) := by
  by_cases ha : bugAlive g = true
  · rw [move_of_alive d idx hg ha]; exact hg
  · have hdead : bugAlive g = false := by simpa using ha
    simp only [Game.move]
    rw [if_neg (by simp [hdead])]
    cases hlk : (getRoom g).exits.lookup (pyUpper d) with
    | none => exact hg
    | some j =>
      apply look_pres
      exact setLoc_pres hg hdead j (exits_target_le hg hlk)

theorem quit_pres {g : Game} (hg : GameInv g) : GameInv (Game.quit g) :=
  ⟨hg.hmap, hg.hatk, hg.hloc, hg.hfc, hg.hlen, hg.hhm, hg.hbug, hg.hpot⟩

theorem collect_pres (idx : Nat) {g : Game} (hg : GameInv g) :
    GameInv (Game.collect idx g) := by
  obtain ⟨c1, c2, c3, hm, hc1, hc2, hc3⟩ := hg.hmap
  rcases content_cases hg with hc | hc | hc
  · have hc' : (getRoom g).content = none := hc
    simp only [Game.collect]
    rw [hc']
    exact hg
  · have hc' : (getRoom g).content = some "Bug" := hc
    simp only [Game.collect]
    rw [hc']
    show GameInv (if pyStartsWith "Bug" "Feature:" = true then _ else g)
    rw [if_neg (by decide)]
    exact hg
  · -- collecting the feature in room 2
    have hc' : (getRoom g).content = some "Feature: User Profiles" := hc
    -- the player cannot be in rooms 0, 1, 3 when the content is a feature
    have h2 : g.player.current_location = 2 := by
      have hl4 : g.player.current_location = 0 ∨ g.player.current_location = 1 ∨
          g.player.current_location = 2 ∨ g.player.current_location = 3 := by
        have := hg.hloc; omega
      rcases hl4 with h0 | h0 | h0 | h0 <;> rw [contentAt, hm, h0] at hc
      · rw [mkMap_getD_zero] at hc; exact absurd hc (by simp)
      · rw [mkMap_getD_one] at hc
        rcases hc1 with rfl | rfl <;> exact absurd hc (by decide)
      · exact h0
      · rw [mkMap_getD_three] at hc
        rcases hc3 with rfl | rfl <;> exact absurd hc (by decide)
    have hc2' : c2 = some "Feature: User Profiles" := by
      rw [contentAt, hm, h2, mkMap_getD_two] at hc
      simpa using hc
    subst hc2'
    -- no live bug can exist in room 2
    have hdead : bugAlive g = false := by
      cases hab : bugAlive g
      · rfl
      · obtain ⟨b, hb, hbpos⟩ := bugAlive_true_iff.mp hab
        obtain ⟨-, hcase⟩ := hg.hbug b hb hbpos
        rcases hcase with ⟨h1, -, -⟩ | ⟨h3, -, -⟩ <;> omega
    have hfc1 : g.player.features_collected ≤ 1 := hg.fc_le_one
    simp only [Game.collect]
    rw [hc']
    show GameInv (if pyStartsWith "Feature: User Profiles" "Feature:" = true then _ else g)
    rw [if_pos (by decide)]
    show GameInv (if 5 ≤ g.player.features_collected + 1 then _ else _)
    rw [if_neg (by omega)]
    apply look_pres
    have hmv : setContent g.map_state g.player.current_location none =
        mkMap none c1 none c3 (some "Feature: API Caching") := by
      rw [h2, hm, setContent_mkMap_two]
    refine ⟨⟨c1, none, c3, hmv, hc1, Or.inr rfl, hc3⟩, hg.hatk, hg.hloc, ?_, ?_,
      min_le_left _ _, ?_, ?_⟩
    · show g.player.features_collected + 1 +
        featureCount (setContent g.map_state g.player.current_location none) = 2
      rw [hmv]
      have hfcold := hg.hfc
      rw [hm] at hfcold
      rcases hc1 with rfl | rfl <;> rcases hc3 with rfl | rfl <;>
        simp [featureCount, mkMap, List.countP_cons, List.countP_nil] at hfcold ⊢ <;>
        omega
    · show g.player.features_collected + 1 =
        (g.player.inventory ++ [("Feature: User Profiles".splitOn ": ").getD 1 ""]).length
      rw [List.length_append, hg.hlen]
      rfl
    · intro b hb hpos
      have := bugAlive_false_iff.mp hdead b hb
      omega
    · show 1 + dmgPot _ ≤
        min (g.player.max_health + 5) (g.player.health + 10)
      have hdM : bugAlive { g with
          player := (g.player.add_feature (("Feature: User Profiles".splitOn ": ").getD 1 "")),
          map_state := setContent g.map_state g.player.current_location none } = false := hdead
      rw [dmgPot, potAt_of_dead hdM, potAt_of_dead hdM]
      have e1 : contentAt { g with
          player := (g.player.add_feature (("Feature: User Profiles".splitOn ": ").getD 1 "")),
          map_state := setContent g.map_state g.player.current_location none } 1 = c1 := by
        show ((setContent g.map_state g.player.current_location none).getD 1 dfltRoom).content = c1
        rw [hmv, mkMap_getD_one]
      have e3 : contentAt { g with
          player := (g.player.add_feature (("Feature: User Profiles".splitOn ": ").getD 1 "")),
          map_state := setContent g.map_state g.player.current_location none } 3 = c3 := by
        show ((setContent g.map_state g.player.current_location none).getD 3 dfltRoom).content = c3
        rw [hmv, mkMap_getD_three]
      rw [e1, e3]
      have hpotg := hg.hpot
      rw [dmgPot, potAt_of_dead hdead, potAt_of_dead hdead] at hpotg
      have ec1 : contentAt g 1 = c1 := by rw [contentAt, hm, mkMap_getD_one]
      have ec3 : contentAt g 3 = c3 := by rw [contentAt, hm, mkMap_getD_three]
      rw [ec1, ec3] at hpotg
      have hhm := hg.hhm
      rcases hc1 with rfl | rfl <;> rcases hc3 with rfl | rfl <;> simp at hpotg ⊢ <;> omega

theorem init_inv : GameInv initGame := by
  refine ⟨⟨some "Bug", some "Feature: User Profiles", some "Bug", rfl,
    Or.inl rfl, Or.inl rfl, Or.inl rfl⟩, rfl, by decide, by decide, rfl,
    by decide, ?_, ?_⟩
  · intro b hb
    exact Option.noConfusion hb
  · show 1 + dmgPot initGame ≤ 100
    decide

theorem step_pres {g g' : Game} (hg : GameInv g) (hs : Step g g') : GameInv g' := by
  cases hs with
  | look idx h g => exact look_pres idx hg
  | move d idx h g => exact move_pres d idx hg
  | attack idx h proll broll g hp hb => exact attack_pres idx proll broll hg hp hb
  | collect idx h g => exact collect_pres idx hg
  | quit g => exact quit_pres hg
  | skip g => exact hg

theorem reachable_inv {g : Game} (h : Reachable g) : GameInv g := by
  induction h with
  | init => exact init_inv
  | step hr hrun hs ih => exact step_pres ih hs

theorem potAt_nonneg {g : Game} {i : Nat} {full d : Int} (hf : 0 ≤ full) (hd : 0 ≤ d) :
    0 ≤ potAt g i full d := by
  rw [potAt]
  split
  · cases hcb : g.current_bug with
    | none => exact hf
    | some b =>
      show 0 ≤ if 0 < b.health ∧ g.player.current_location = i then retal d b.health else full
      by_cases hcond : 0 < b.health ∧ g.player.current_location = i
      · rw [if_pos hcond]
        exact retal_nonneg hd
      · rw [if_neg hcond]
        exact hf
  · exact le_refl 0

theorem dmgPot_nonneg (g : Game) : 0 ≤ dmgPot g := by
  rw [dmgPot]
  have h1 : (0 : Int) ≤ potAt g 1 26 13 := potAt_nonneg (by norm_num) (by norm_num)
  have h3 : (0 : Int) ≤ potAt g 3 54 18 := potAt_nonneg (by norm_num) (by norm_num)
  omega

theorem look_player (idx : Nat) (g : Game) : (Game.look idx g).player = g.player := by
  simp only [Game.look]
  split
  · rfl
  · split
    · split
      · split <;> rfl
      · rfl
    · rfl

/-- Claim C1: the claim is FALSE of the code.  The collect handler requires
`features_collected >= 5` to declare the win, but the constructed map holds
only two feature rooms (rooms 2 and 4; the code comment nonetheless says
five), and along every reachable play `features_collected` stays strictly
below the threshold, so the win state asserted reachable never occurs. -/
theorem c1_win_threshold_deficit :
    featureCount initGame.map_state = 2 ∧
    ∀ g, Reachable g → g.player.features_collected < 5 := by
  refine ⟨by decide, ?_⟩
  intro g h
  have := (reachable_inv h).fc_le_one
  omega

theorem c1_win_threshold_deficit_witness :
    featureCount initGame.map_state = 2 ∧ initGame.player.features_collected < 5 :=
  ⟨c1_win_threshold_deficit.1, c1_win_threshold_deficit.2 initGame Reachable.init⟩

/-- Claim C2: at every reachable state the stored health satisfies
`0 ≤ health ≤ max_health`.  The lower bound holds because the total
retaliation damage still obtainable is bounded by the potential
`dmgPot` and the health invariant keeps `health` strictly above it. -/
theorem c2_health_bounds {g : Game} (h : Reachable g) :
    0 ≤ g.player.health ∧ g.player.health ≤ g.player.max_health := by
  have hg := reachable_inv h
  have hpot := hg.hpot
  have hnn := dmgPot_nonneg g
  exact ⟨by omega, hg.hhm⟩

theorem c2_health_bounds_witness :
    0 ≤ initGame.player.health ∧ initGame.player.health ≤ initGame.player.max_health :=
  c2_health_bounds Reachable.init

/-- Claim C9: at every reachable state `features_collected` equals the
inventory length. -/
theorem c9_features_match_inventory {g : Game} (h : Reachable g) :
    g.player.features_collected = g.player.inventory.length :=
  (reachable_inv h).hlen

theorem c9_features_match_inventory_witness :
    initGame.player.features_collected = initGame.player.inventory.length :=
  c9_features_match_inventory Reachable.init

/-- Claim C10: no operation changes the player attack power, so it stays 15
at every reachable state, and hence every player damage roll (an integer in
`[attack-5, attack+5]`) lies in `[10, 20]` and is strictly positive. -/
theorem c10_attack_power_constant {g : Game} (h : Reachable g) :
    g.player.attack = 15 ∧
    ∀ r : Int, prollOk g r → 10 ≤ r ∧ r ≤ 20 ∧ 0 < r := by
  have hg := reachable_inv h
  refine ⟨hg.hatk, ?_⟩
  intro r hr
  rw [prollOk, hg.hatk] at hr
  omega

theorem c10_attack_power_constant_witness :
    initGame.player.attack = 15 ∧ (10 ≤ (12 : Int) ∧ (12 : Int) ≤ 20 ∧ (0 : Int) < 12) :=
  ⟨(c10_attack_power_constant Reachable.init).1,
    (c10_attack_power_constant Reachable.init).2 12 ⟨by decide, by decide⟩⟩

/-- Claim C4: the claim is FALSE of the code.  The constructor never mutates
the `MAP` template (each room dict is copied), but the two
`FEATURE_POOL.pop(0)` calls do mutate the class-level pool, so a second
construction seeds rooms 2 and 4 with different features than the first,
and a third construction fails outright. -/
theorem c4_pool_mutation :
    ∃ g1 rest1 g2 rest2,
      gameInit FEATURE_POOL = some (g1, rest1) ∧
      gameInit rest1 = some (g2, rest2) ∧
      rest1 ≠ FEATURE_POOL ∧
      (g1.map_state.getD 2 dfltRoom).content = some "Feature: User Profiles" ∧
      (g2.map_state.getD 2 dfltRoom).content = some "Feature: Real-time Notifications" ∧
      g1.map_state ≠ g2.map_state ∧
      gameInit rest2 = none := by
  refine ⟨_, _, _, _, rfl, rfl, by decide, by decide, by decide, by decide, by decide⟩

/-- Claim C5: whenever a bug is instantiated (by looking at, or starting
combat in, a room whose content marker contains "Bug" while no live bug
exists) its level is `1 + features_collected / 2 + current_location / 2`,
its health and max health are `20 + level * 10`, its attack is
`5 + level * 5`, and its name is the `idx`-th entry of the fixed four-name
pool, where `idx` ranges over the whole pool. -/
theorem c5_bug_spawn_stats (g : Game) (idx : Nat) (c : String) (hidx : idx < 4)
    (hroom : (getRoom g).content = some c) (hbug : strContains c "Bug" = true)
    (hnolive : bugAlive g = false) :
    Game.look idx g = spawnBug idx g ∧
    Game.start_combat idx g = spawnBug idx g ∧
    ∃ bug, (spawnBug idx g).current_bug = some bug ∧
      bug.level = 1 + g.player.features_collected / 2 + g.player.current_location / 2 ∧
      bug.health = 20 + (bug.level : Int) * 10 ∧
      bug.max_health = bug.health ∧
      bug.attack = 5 + (bug.level : Int) * 5 ∧
      bug.name = BUG_NAMES.getD idx "" ∧
      bug.name ∈ BUG_NAMES := by
  refine ⟨look_spawn idx hroom hbug hnolive, start_combat_spawn idx hroom hbug hnolive,
    mkBug idx (1 + g.player.features_collected / 2 + g.player.current_location / 2),
    rfl, rfl, rfl, rfl, rfl, rfl, ?_⟩
  show BUG_NAMES.getD idx "" ∈ BUG_NAMES
  interval_cases idx <;> decide

theorem c5_bug_spawn_stats_witness :
    Game.look 2
        { initGame with player := { initGame.player with current_location := 1 } } =
      spawnBug 2
        { initGame with player := { initGame.player with current_location := 1 } } :=
  (c5_bug_spawn_stats
    { initGame with player := { initGame.player with current_location := 1 } }
    2 "Bug" (by decide) rfl rfl rfl).1

theorem collect_not_feature (idx : Nat) {g : Game} {c : String}
    (hc : (getRoom g).content = some c) (hf : pyStartsWith c "Feature:" = false) :
    Game.collect idx g = g := by
  simp [Game.collect, hc, hf]

theorem collect_feature (idx : Nat) {g : Game} {c : String}
    (hc : (getRoom g).content = some c) (hf : pyStartsWith c "Feature:" = true) :
    Game.collect idx g =
      if 5 ≤ g.player.features_collected + 1 then
        { g with
          player := g.player.add_feature ((c.splitOn ": ").getD 1 ""),
          map_state := setContent g.map_state g.player.current_location none,
          is_running := false }
      else Game.look idx
        { g with
          player := g.player.add_feature ((c.splitOn ": ").getD 1 ""),
          map_state := setContent g.map_state g.player.current_location none } := by
  simp only [Game.collect]
  rw [hc]
  show (if pyStartsWith c "Feature:" = true then
      if 5 ≤ (g.player.add_feature ((c.splitOn ": ").getD 1 "")).features_collected then
        { g with
          player := g.player.add_feature ((c.splitOn ": ").getD 1 ""),
          map_state := setContent g.map_state g.player.current_location none,
          is_running := false }
      else
        Game.look idx
          { g with
            player := g.player.add_feature ((c.splitOn ": ").getD 1 ""),
            map_state := setContent g.map_state g.player.current_location none }
    else g) = _
  rw [if_pos hf]
  rfl

/-- Claim C6: while a live bug is active, `move` is rejected for every
direction and leaves the state unchanged; with no live bug, `move` towards
a listed exit sets `current_location` to that exit target, and `move` in
any other direction leaves the state unchanged. -/
theorem c6_move_semantics (g : Game) (d : String) (idx : Nat) (hr : Reachable g) :
    (bugAlive g = true → Game.move d idx g = g) ∧
    (bugAlive g = false →
      (∀ j, (getRoom g).exits.lookup (pyUpper d) = some j →
        (Game.move d idx g).player.current_location = j) ∧
      ((getRoom g).exits.lookup (pyUpper d) = none → Game.move d idx g = g)) := by
  have hg := reachable_inv hr
  constructor
  · intro ha
    exact move_of_alive d idx hg ha
  · intro hdead
    constructor
    · intro j hj
      simp only [Game.move]
      rw [if_neg (by simp [hdead]), hj]
      rw [look_player]
    · intro hnone
      simp only [Game.move]
      rw [if_neg (by simp [hdead]), hnone]

theorem c6_move_semantics_witness :
    (Game.move "n" 0 initGame).player.current_location = 1 :=
  ((c6_move_semantics initGame "n" 0 Reachable.init).2 rfl).1 1 (by decide)

/-- Claim C7: `collect` succeeds exactly on a feature marker: on success the
parsed feature name is appended to the inventory, the counter increments,
max health gains 5 permanently, health heals +10 capped at the new maximum,
and the room content clears; with no feature present the state is
unchanged. -/
theorem c7_collect_semantics (g : Game) (idx : Nat)
    (hlen : g.player.current_location < g.map_state.length) :
    (∀ c, (getRoom g).content = some c → pyStartsWith c "Feature:" = true →
      (Game.collect idx g).player.inventory =
        g.player.inventory ++ [(c.splitOn ": ").getD 1 ""] ∧
      (Game.collect idx g).player.features_collected = g.player.features_collected + 1 ∧
      (Game.collect idx g).player.max_health = g.player.max_health + 5 ∧
      (Game.collect idx g).player.health =
        min (g.player.max_health + 5) (g.player.health + 10) ∧
      ((Game.collect idx g).map_state.getD g.player.current_location dfltRoom).content =
        none) ∧
    ((∀ c, (getRoom g).content = some c → pyStartsWith c "Feature:" = false) →
      Game.collect idx g = g) := by
  constructor
  · intro c hc hf
    rw [collect_feature idx hc hf]
    have hcn : (getRoom { g with
        player := g.player.add_feature ((c.splitOn ": ").getD 1 ""),
        map_state := setContent g.map_state g.player.current_location none }).content =
        none := by
      show ((setContent g.map_state g.player.current_location none).getD
        g.player.current_location dfltRoom).content = none
      rw [getD_setContent_self _ _ _ hlen]
    by_cases hwin : 5 ≤ g.player.features_collected + 1
    · rw [if_pos hwin]
      refine ⟨rfl, rfl, rfl, rfl, ?_⟩
      show ((setContent g.map_state g.player.current_location none).getD
        g.player.current_location dfltRoom).content = none
      rw [getD_setContent_self _ _ _ hlen]
    · rw [if_neg hwin, look_of_content_none _ _ hcn]
      refine ⟨rfl, rfl, rfl, rfl, ?_⟩
      show ((setContent g.map_state g.player.current_location none).getD
        g.player.current_location dfltRoom).content = none
      rw [getD_setContent_self _ _ _ hlen]
  · intro hno
    cases hcc : (getRoom g).content with
    | none =>
      rw [show Game.collect idx g = g from by simp [Game.collect, hcc]]
    | some c => rw [collect_not_feature idx hcc (hno c hcc)]

theorem c7_collect_semantics_witness :
    (Game.collect 0 (Game.move "e" 0 initGame)).player.features_collected =
      (Game.move "e" 0 initGame).player.features_collected + 1 :=
  ((c7_collect_semantics (Game.move "e" 0 initGame) 0 (by decide)).1
    "Feature: User Profiles" (by decide) (by decide)).2.1

/-- Claim C8: `look` in a room whose content is neither a bug marker nor a
feature is pure: any number of repetitions leaves the whole state unchanged
and never spawns a bug. -/
theorem c8_look_idempotent (g : Game) (idx n : Nat)
    (h : ∀ c, (getRoom g).content = some c →
      strContains c "Bug" = false ∧ pyStartsWith c "Feature:" = false) :
    (Game.look idx)^[n] g = g ∧ (Game.look idx g).current_bug = g.current_bug := by
  have h1 : Game.look idx g = g := by
    cases hcc : (getRoom g).content with
    | none => exact look_of_content_none idx g hcc
    | some c => exact look_of_not_bug idx hcc (h c hcc).1
  constructor
  · induction n with
    | zero => rfl
    | succ k ih => rw [Function.iterate_succ_apply, h1, ih]
  · rw [h1]

theorem c8_look_idempotent_witness :
    (Game.look 0)^[3] initGame = initGame ∧
      (Game.look 0 initGame).current_bug = initGame.current_bug :=
  c8_look_idempotent initGame 0 3 (fun c hc => Option.noConfusion hc)

/-- Claim C3: one round of `attack` against a live bug: the player roll (any
integer in `[attack-5, attack+5]`) hits the bug first; if the bug drops to
0 or below, the room content and the bug reference are cleared, the player
heals +5 capped at max health, the location and running flag are untouched
and no retaliation happens; otherwise the bug keeps the reduced health and
retaliates with any integer in `[bug.attack-3, bug.attack+3]`, and the
running flag is cleared exactly when the player drops to 0 or below. -/
theorem c3_attack_round_semantics (g : Game) (b : Bug) (idx : Nat) (proll broll : Int)
    (hcb : g.current_bug = some b) (hpos : 0 < b.health)
    (hlen : g.player.current_location < g.map_state.length)
    (hp : g.player.attack - 5 ≤ proll ∧ proll ≤ g.player.attack + 5)
    (hbr : b.attack - 3 ≤ broll ∧ broll ≤ b.attack + 3) :
    (b.health - proll ≤ 0 →
      (Game.attack idx proll broll g).current_bug = none ∧
      ((Game.attack idx proll broll g).map_state.getD
        g.player.current_location dfltRoom).content = none ∧
      (Game.attack idx proll broll g).player.health =
        min g.player.max_health (g.player.health + 5) ∧
      (Game.attack idx proll broll g).player.current_location =
        g.player.current_location ∧
      (Game.attack idx proll broll g).is_running = g.is_running) ∧
    (0 < b.health - proll →
      (Game.attack idx proll broll g).current_bug =
        some { b with health := b.health - proll } ∧
      (Game.attack idx proll broll g).map_state = g.map_state ∧
      (Game.attack idx proll broll g).player.health = g.player.health - broll ∧
      (Game.attack idx proll broll g).is_running =
        (if g.player.health - broll ≤ 0 then false else g.is_running)) := by
  have ha : bugAlive g = true := bugAlive_true_iff.mpr ⟨b, hcb, hpos⟩
  have heq : Game.attack idx proll broll g = Game.attackRound idx proll broll g b := by
    simp only [Game.attack]
    rw [if_neg (by simp [ha]), hcb]
    show (if b.is_alive = false then g else Game.attackRound idx proll broll g b) = _
    rw [if_neg (by rw [bug_is_alive_true.mpr hpos]; simp)]
  rw [heq]
  constructor
  · intro hkill
    have hdead1 : (b.take_damage proll).is_alive = false := by
      rw [bug_is_alive_false, bug_take_damage_health]
      exact hkill
    simp only [Game.attackRound]
    rw [if_pos hdead1]
    have hcn : (getRoom { g with
        map_state := setContent g.map_state g.player.current_location none,
        current_bug := none,
        player := { g.player with
          health := min g.player.max_health (g.player.health + 5) } }).content = none := by
      show ((setContent g.map_state g.player.current_location none).getD
        g.player.current_location dfltRoom).content = none
      rw [getD_setContent_self _ _ _ hlen]
    rw [look_of_content_none _ _ hcn]
    refine ⟨rfl, ?_, rfl, rfl, rfl⟩
    show ((setContent g.map_state g.player.current_location none).getD
      g.player.current_location dfltRoom).content = none
    rw [getD_setContent_self _ _ _ hlen]
  · intro hsurv
    have halive1 : (b.take_damage proll).is_alive = true := by
      rw [bug_is_alive_true, bug_take_damage_health]
      exact hsurv
    simp only [Game.attackRound]
    rw [if_neg (by rw [halive1]; simp)]
    by_cases hpd : g.player.health - broll ≤ 0
    · have hpdead : ({ g with current_bug := some (b.take_damage proll) }.player.take_damage
          broll).is_alive = false := by
        rw [player_is_alive_false, player_take_damage_health]
        exact hpd
      rw [if_pos hpdead]
      exact ⟨rfl, rfl, rfl, by rw [if_pos hpd]⟩
    · have hplive : ¬ (({ g with current_bug := some (b.take_damage proll) }.player.take_damage
          broll).is_alive = false) := by
        rw [player_is_alive_false, player_take_damage_health]
        show ¬(g.player.health - broll ≤ 0)
        exact hpd
      rw [if_neg hplive]
      exact ⟨rfl, rfl, rfl, by rw [if_neg hpd]⟩

theorem c3_attack_round_semantics_witness :
    (Game.attack 0 15 10 (Game.move "n" 0 initGame)).player.health =
      (Game.move "n" 0 initGame).player.health - 10 :=
  ((c3_attack_round_semantics (Game.move "n" 0 initGame) (mkBug 0 1) 0 15 10
    (by decide) (by decide) (by decide) (by decide) (by decide)).2 (by decide)).2.2.1

theorem gameInit_initGame :
    gameInit FEATURE_POOL =
      some (initGame,
        ["Real-time Notifications", "Data Migration Script", "Linter Configuration"]) := by
  decide

theorem init_look_id (idx : Nat) : Game.look idx initGame = initGame :=
  look_of_content_none idx initGame rfl
